import Mathlib

/-!
Shallow embedding of the live-match payload normalizer of the Crickbuzz
dashboard (src/pages/Live_Match.py) and of the rankings / player-search
helpers (src/pages/Player_Stats.py).

Modelling conventions:
* JSON documents are the inductive type `JVal` (mapping, array, string,
  int, float, bool, null).  Python floats are modelled as rationals, so
  float arithmetic is exact; every value the claims exercise has an exact
  binary and decimal representation, where Python agrees with ℚ.
* Python exceptions are modelled by `Except PyErr`: an operation that can
  raise (attribute access on a non-dict, iterating a non-iterable, ...)
  returns `.error`, and a `try/except` block is an explicit match on the
  result.  A plain (non-`Except`) function embeds Python code that cannot
  raise.
* Python truthiness, `or`, `str()`, dict `.get`, `//` and `%` are embedded
  by the `truthy`, `pyOr`, `pyStr`, `dictGet`, `Int.fdiv`/`Int.emod`
  helpers below, following CPython semantics (note: `bool` is a subclass
  of `int` in Python, so `isinstance(x, int)` accepts booleans).
-/

namespace Crickbuzz

/-- Python-style JSON values: `None`, booleans, ints, floats (modelled as
rationals), strings, lists, and string-keyed dicts (association lists,
first binding wins, mirroring unique-key Python dicts). -/
inductive JVal where
  | null : JVal
  | boolVal : Bool → JVal
  | intVal : Int → JVal
  | floatVal : ℚ → JVal
  | strVal : String → JVal
  | arrVal : List JVal → JVal
  | objVal : List (String × JVal) → JVal

/-- Python exceptions the embedded code can raise. -/
inductive PyErr where
  | attributeError : PyErr
  | typeError : PyErr
  | valueError : PyErr
  | requestError : PyErr
deriving Repr, DecidableEq

/-- First binding of `k` in an association list (Python dict lookup). -/
def lookupField : List (String × JVal) → String → Option JVal
  | [], _ => none
  | (k, v) :: rest, key => if k = key then some v else lookupField rest key

/-- Dict lookup with a default (Python `d.get(k, default)`). -/
def lookupD (fs : List (String × JVal)) (k : String) (d : JVal) : JVal :=
  (lookupField fs k).getD d

/-- Python truthiness of a JSON value. -/
def truthy : JVal → Bool
  | .null => false
  | .boolVal b => b
  | .intVal n => n != 0
  | .floatVal q => q != 0
  | .strVal s => s != ""
  | .arrVal xs => !xs.isEmpty
  | .objVal fs => !fs.isEmpty

/-- Python `a or b`: `a` if truthy, else `b`. -/
def pyOr (a b : JVal) : JVal := if truthy a then a else b

def isDict : JVal → Bool
  | .objVal _ => true
  | _ => false

def isList : JVal → Bool
  | .arrVal _ => true
  | _ => false

def isNull : JVal → Bool
  | .null => true
  | _ => false

/-- `d.get(k, default)`: `AttributeError` on a non-dict receiver,
otherwise the stored value or the default. -/
def dictGetD (v : JVal) (k : String) (d : JVal) : Except PyErr JVal :=
  match v with
  | .objVal fs => .ok (lookupD fs k d)
  | _ => .error .attributeError

/-- `d.get(k)` (default `None`). -/
def dictGet (v : JVal) (k : String) : Except PyErr JVal :=
  dictGetD v k .null

/-- Python `for x in v`: lists yield their elements, strings their
characters, dicts their keys; other values raise `TypeError`. -/
def pyIter : JVal → Except PyErr (List JVal)
  | .arrVal xs => .ok xs
  | .strVal s => .ok (s.data.map (fun c => .strVal (String.mk [c])))
  | .objVal fs => .ok (fs.map (fun p => .strVal p.1))
  | _ => .error .typeError

/-- `isinstance(v, int)` (Python booleans are ints: `True ↦ 1`). -/
def asPyInt : JVal → Option Int
  | .intVal n => some n
  | .boolVal b => some (if b then 1 else 0)
  | _ => none

/-- `isinstance(v, (int, float))`, with the numeric value as a rational. -/
def numQ : JVal → Option ℚ
  | .intVal n => some (n : ℚ)
  | .floatVal q => some q
  | .boolVal b => some (if b then 1 else 0)
  | _ => none

/-- Decimal digits of a fraction `rem / den`, at most `fuel` digits,
stopping at an exact expansion (used to print floats). -/
def fracDigits : Nat → Nat → Nat → String
  | _, _, 0 => ""
  | rem, den, fuel + 1 =>
    if rem = 0 then ""
    else toString (rem * 10 / den) ++ fracDigits (rem * 10 % den) den fuel

/-- Rendering of a Python float.  On values with a short exact decimal
expansion (every float the claims exercise) this agrees with CPython
`repr`, which prints the shortest decimal that round-trips. -/
def floatRepr (q : ℚ) : String :=
  let sgn := if q < 0 then "-" else ""
  let a := q.num.natAbs
  let b := q.den
  let frac := fracDigits (a % b) b 17
  sgn ++ toString (a / b) ++ "." ++ (if frac = "" then "0" else frac)

mutual
/-- Python `repr` of a JSON value (string escaping inside containers is
not modelled; no claim renders a container). -/
def pyRepr : JVal → String
  | .null => "None"
  | .boolVal b => if b then "True" else "False"
  | .intVal n => toString n
  | .floatVal q => floatRepr q
  | .strVal s => "\x27" ++ s ++ "\x27"
  | .arrVal xs => "[" ++ pyReprSeq xs ++ "]"
  | .objVal fs => "\x7b" ++ pyReprFields fs ++ "\x7d"

def pyReprSeq : List JVal → String
  | [] => ""
  | [x] => pyRepr x
  | x :: y :: xs => pyRepr x ++ ", " ++ pyReprSeq (y :: xs)

def pyReprFields : List (String × JVal) → String
  | [] => ""
  | [(k, v)] => "\x27" ++ k ++ "\x27: " ++ pyRepr v
  | (k, v) :: f :: fs => "\x27" ++ k ++ "\x27: " ++ pyRepr v ++ ", " ++ pyReprFields (f :: fs)
end

/-- Python `str`: identity on strings, `repr` elsewhere. -/
def pyStr : JVal → String
  | .strVal s => s
  | v => pyRepr v

/-- `needle` is a leading segment of `hay` (helper for Python `in`). -/
def leadMatch : List Char → List Char → Bool
  | [], _ => true
  | _ :: _, [] => false
  | n :: ns, h :: hs => (n = h) && leadMatch ns hs

/-- `needle` occurs contiguously in `hay` (helper for Python `in`). -/
def hasSub (ns : List Char) : List Char → Bool
  | [] => leadMatch ns []
  | h :: hs => leadMatch ns (h :: hs) || hasSub ns hs

/-- Python `needle in hay` on strings (substring containment). -/
def pyInStr (needle hay : String) : Bool :=
  hasSub needle.data hay.data

/-- Python `"." in s`. -/
def pyHasDot (s : String) : Bool :=
  s.data.any (fun c => c = '.')

/-- Splitter for Python `s.split(".")`. -/
def splitDotAux : List Char → List Char → List (List Char)
  | [], acc => [acc.reverse]
  | c :: cs, acc =>
    if c = '.' then acc.reverse :: splitDotAux cs [] else splitDotAux cs (c :: acc)

/-- Python `s.split(".")`. -/
def pySplitDot (s : String) : List String :=
  (splitDotAux s.data []).map String.mk

/-- Python `s.upper()` (ASCII, which covers every label the source
inspects). -/
def pyUpper (s : String) : String :=
  String.mk (s.data.map Char.toUpper)

/-- Digits of a decimal numeral (`none` when empty or non-digit). -/
def parseNatFrom : List Char → Nat → Option Nat
  | [], acc => some acc
  | c :: cs, acc =>
    if c.isDigit then parseNatFrom cs (acc * 10 + (c.toNat - 48)) else none

def parseNatStr (cs : List Char) : Option Nat :=
  if cs.isEmpty then none else parseNatFrom cs 0

/-- Python `int(s)` on a string.  Modelled for an optional sign followed
by decimal digits; whitespace, underscores and other bases do not occur
in the payload shapes the claims exercise. -/
def pyParseInt (s : String) : Option Int :=
  match s.data with
  | '-' :: rest => (parseNatStr rest).map (fun n => -(n : Int))
  | '+' :: rest => (parseNatStr rest).map (fun n => (n : Int))
  | cs => (parseNatStr cs).map (fun n => (n : Int))

/-- Python `float(s)` on a dot-free string (the only way the source calls
it).  Modelled for optional-sign decimal integers; exponents and
`inf`/`nan` forms do not occur in the payload shapes the claims
exercise. -/
def pyParseFloat (s : String) : Option ℚ :=
  (pyParseInt s).map (fun n => (n : ℚ))

/-- `overs_to_float` (src/pages/Live_Match.py:84-96): `None ↦ -1.0`,
numbers to themselves, `"o.b"` strings to `o + b/6`, anything
unparsable to `-1.0` (the bare `except` makes the function total). -/
def overs_to_float (overs : JVal) : ℚ :=
  match overs with
  | .null => -1
  | .intVal n => (n : ℚ)
  | .floatVal q => q
  | .boolVal b => if b then 1 else 0
  | v =>
    let s := pyStr v
    if pyHasDot s then
      match pySplitDot s with
      | [o, b] =>
        match pyParseFloat o, pyParseInt b with
        | some fo, some ib => fo + (ib : ℚ) / 6
        | _, _ => -1
      | _ => -1
    else
      match pyParseFloat s with
      | some f => f
      | none => -1

/-- `show_innings` (src/pages/Live_Match.py:52-65): render one innings
record as `"runs/wkts (overs)"`, `"runs (overs)"`, or `""`.  The guard
`not isinstance(inn, dict) or not inn` makes the later `.get` calls safe;
the `balls` fallback uses Python floor division and modulus. -/
def show_innings (inn : JVal) : Except PyErr String :=
  if !(isDict inn && truthy inn) then .ok "" else do
    let runs ← dictGet inn "runs"
    let wkts ← dictGet inn "wickets"
    let overs0 ← dictGet inn "overs"
    let overs ←
      if isNull overs0 then do
        let balls ← dictGet inn "balls"
        match asPyInt balls with
        | some n =>
          pure (JVal.strVal (toString (Int.fdiv n 6) ++ "." ++ toString (Int.emod n 6)))
        | none => pure (JVal.strVal "-")
      else pure overs0
    if isNull runs && isNull wkts then .ok ""
    else if !(isNull wkts) then
      .ok (pyStr runs ++ "/" ++ pyStr wkts ++ " (" ++ pyStr overs ++ ")")
    else .ok (pyStr runs ++ " (" ++ pyStr overs ++ ")")

/-- `isinstance(v, (int, float, str))` (Python booleans are ints). -/
def isScalarExtras : JVal → Bool
  | .intVal _ => true
  | .floatVal _ => true
  | .strVal _ => true
  | .boolVal _ => true
  | _ => false

/-- Python `total + v` on numbers: int-like plus int-like stays an int,
any float makes the sum a float. -/
def pyAddNum (a b : JVal) : JVal :=
  match asPyInt a, asPyInt b with
  | some x, some y => .intVal (x + y)
  | _, _ => .floatVal ((numQ a).getD 0 + (numQ b).getD 0)

/-- The breakdown loop of `_extract_extras`: add each numeric sub-field
of the breakdown dict to the running total. -/
def sumLoop (efs : List (String × JVal)) : List String → JVal → JVal
  | [], total => total
  | k :: ks, total =>
    let v := lookupD efs k .null
    if (numQ v).isSome then sumLoop efs ks (pyAddNum total v)
    else sumLoop efs ks total

/-- `_extract_extras` (src/pages/Live_Match.py:98-114): normalize extras
to a scalar, a breakdown sum, or the sentinel `"—"`. -/
def _extract_extras (inn : JVal) : Except PyErr JVal :=
  if !(isDict inn) then .ok (.strVal "—") else do
    let e ← dictGet inn "extras"
    if isScalarExtras e then .ok e
    else do
      let er ← dictGet inn "extraRuns"
      if isScalarExtras er then .ok er
      else do
        let ed ← if isDict e then pure e else dictGet inn "extraDetail"
        match ed with
        | .objVal efs =>
          let total := sumLoop efs ["byes", "legByes", "wides", "noBalls", "penalty"] (.intVal 0)
          if 0 < (numQ total).getD 0 then .ok total else .ok (.strVal "—")
        | _ => .ok (.strVal "—")

/-- The substring test of the format classifier, applied to an
upper-cased label: `TEST`, then `ODI`, then `T20`. -/
def checkTag (u : String) : Option String :=
  if pyInStr "TEST" u then some "TEST"
  else if pyInStr "ODI" u then some "ODI"
  else if pyInStr "T20" u then some "T20"
  else none

/-- `info or {}` as it appears in `guess_format`. -/
def orDict (v : JVal) : JVal :=
  if truthy v then v else .objVal []

/-- The `for k in ("matchDesc", "stateTitle", "seriesName")` loop of
`guess_format`. -/
def guessLoop (info : JVal) : List String → Except PyErr String
  | [] => .ok "UNKNOWN"
  | k :: ks => do
    let s ← dictGet (orDict info) k
    match s with
    | .strVal str =>
      match checkTag (pyUpper str) with
      | some t => .ok t
      | none => guessLoop info ks
    | _ => guessLoop info ks

/-- `guess_format` (src/pages/Live_Match.py:67-82): `matchFormat` first,
then `matchDesc`, `stateTitle`, `seriesName`; non-string fields are
skipped.  The `fallback` parameter of the source is always left at its
default `"UNKNOWN"`, which is inlined here. -/
def guess_format (info : JVal) : Except PyErr String := do
  let s ← dictGet (orDict info) "matchFormat"
  match s with
  | .strVal str =>
    match checkTag (pyUpper str) with
    | some t => .ok t
    | none => guessLoop info ["matchDesc", "stateTitle", "seriesName"]
  | _ => guessLoop info ["matchDesc", "stateTitle", "seriesName"]

/-- `g` (src/pages/Live_Match.py:43-50): safe nested dict get; any
non-dict intermediate or missing key yields the default. -/
def g (d : JVal) (ks : List String) (default : JVal) : JVal :=
  match ks with
  | [] => d
  | k :: rest =>
    match d with
    | .objVal fs =>
      match lookupField fs k with
      | some v => g v rest default
      | none => default
    | _ => default

/-- A candidate of the innings selector:
`(overs_to_float(inn.get("overs")), batting-team tag, innings record)`.
The tag is `none` for an `inningsScoreList` entry whose `batTeamId` is
neither 1 nor 2 (Python `None`). -/
abbrev Cand := ℚ × Option String × JVal

/-- Python `bt_id == 1` for a JSON value (numeric cross-type equality;
booleans equal 0/1). -/
def pyEqInt (v : JVal) (n : Int) : Bool :=
  match numQ v with
  | some q => q == (n : ℚ)
  | none => false

/-- Python `bat_team == t1s` where `bat_team` may be `None`. -/
def optEqStr (o : Option String) (s : String) : Bool :=
  match o with
  | some x => x == s
  | none => false

/-- Python `bat_team or "—"` where `bat_team` may be `None`. -/
def optOrDash (o : Option String) : String :=
  match o with
  | some s => if s = "" then "—" else s
  | none => "—"

/-- Python `bowl_team or "—"` on a string. -/
def strOrDash (s : String) : String :=
  if s = "" then "—" else s

/-- One step of the slot loop
`for bt, inn in [(t1s, t1i2), (t2s, t2i2), (t1s, t1i1), (t2s, t2i1)]`:
append a candidate when the slot is truthy (`inn.get("overs")` raises on
a truthy non-dict slot). -/
def slotStep (cands : List Cand) (bt : String) (inn : JVal) : Except PyErr (List Cand) :=
  if truthy inn then do
    let ov ← dictGet inn "overs"
    .ok (cands ++ [(overs_to_float ov, some bt, inn)])
  else .ok cands

/-- The `inningsScoreList` loop of `pick_current_innings`: non-dict
entries are skipped; the batting tag comes from `batTeamId`. -/
def islStep (t1s t2s : String) (cands : List Cand) : List JVal → Except PyErr (List Cand)
  | [] => .ok cands
  | inn :: rest =>
    if !(isDict inn) then islStep t1s t2s cands rest
    else do
      let bt_id ← dictGet inn "batTeamId"
      let bt := if pyEqInt bt_id 1 then some t1s
        else if pyEqInt bt_id 2 then some t2s else none
      let ov ← dictGet inn "overs"
      islStep t1s t2s (cands ++ [(overs_to_float ov, bt, inn)]) rest

/-- Candidate enumeration of `pick_current_innings`
(src/pages/Live_Match.py:123-140): the four team-score slots in the fixed
order team1-inngs2, team2-inngs2, team1-inngs1, team2-inngs1, then every
entry of `inningsScoreList`. -/
def collect_cands (score : JVal) (t1s t2s : String) : Except PyErr (List Cand) := do
  let t1i1 := pyOr (g score ["team1Score", "inngs1"] .null) (.objVal [])
  let t1i2 := pyOr (g score ["team1Score", "inngs2"] .null) (.objVal [])
  let t2i1 := pyOr (g score ["team2Score", "inngs1"] .null) (.objVal [])
  let t2i2 := pyOr (g score ["team2Score", "inngs2"] .null) (.objVal [])
  let cands ← slotStep [] t1s t1i2
  let cands ← slotStep cands t2s t2i2
  let cands ← slotStep cands t1s t1i1
  let cands ← slotStep cands t2s t2i1
  let isl ← dictGet score "inningsScoreList"
  match isl with
  | .arrVal xs => islStep t1s t2s cands xs
  | _ => .ok cands

/-- Stable insertion of a candidate into a descending-sorted list: the
new candidate goes before the first element whose key is not strictly
greater (so at equal keys the earlier-enumerated candidate stays
first). -/
def insertDescCand (x : Cand) : List Cand → List Cand
  | [] => [x]
  | y :: ys => if x.1 < y.1 then y :: insertDescCand x ys else x :: y :: ys

/-- Stable descending sort by the overs key, the semantics of Python
`cands.sort(key=lambda x: x[0], reverse=True)` (Timsort is stable, and
`reverse=True` reverses the comparison, not the list). -/
def sortDescCands : List Cand → List Cand
  | [] => []
  | x :: xs => insertDescCand x (sortDescCands xs)

/-- `pick_current_innings` (src/pages/Live_Match.py:116-148).  The
guard `if not cands` in the source returns the all-unknown triple; it
coincides with the empty case of the match below, because sorting the
empty list is empty. -/
def pick_current_innings (score : JVal) (t1s t2s : String) :
    Except PyErr (String × String × JVal) := do
  let cands ← collect_cands score t1s t2s
  match sortDescCands cands with
  | [] => .ok ("—", "—", .objVal [])
  | (_, bat_team, inn) :: _ =>
    let bowl_team := if optEqStr bat_team t1s then t2s else t1s
    .ok (optOrDash bat_team, strOrDash bowl_team, pyOr inn (.objVal []))

/-- A flattened match summary (src/pages/Live_Match.py:178-185). -/
structure MatchSummary where
  label : String
  match_id : JVal
  series : JVal
  format : String
  info : JVal
  score : JVal

/-- The innermost loop body of `collect_matches`: build one summary from
a `matches` entry (`m.get` and `info.get` raise on truthy non-dicts). -/
def build_match (series_name : JVal) (m : JVal) : Except PyErr MatchSummary := do
  let info := pyOr (← dictGet m "matchInfo") (.objVal [])
  let score := pyOr (← dictGet m "matchScore") (.objVal [])
  let match_id ← dictGet info "matchId"
  let t1 := pyOr (pyOr (g info ["team1", "teamName"] .null)
    (g info ["team1", "teamSName"] .null)) (.strVal "Team 1")
  let t2 := pyOr (pyOr (g info ["team2", "teamName"] .null)
    (g info ["team2", "teamSName"] .null)) (.strVal "Team 2")
  let fmt ← guess_format info
  let label := pyStr t1 ++ " vs " ++ pyStr t2 ++ " — " ++ pyStr series_name
    ++ " (" ++ fmt ++ ")"
  .ok { label := label, match_id := match_id, series := series_name,
        format := fmt, info := info, score := score }

/-- `for m in (wrap.get("matches") or [])`. -/
def loop_matches (series_name : JVal) : List JVal → Except PyErr (List MatchSummary)
  | [] => .ok []
  | m :: rest => do
    let one ← build_match series_name m
    let more ← loop_matches series_name rest
    .ok (one :: more)

/-- `for s in (bucket.get("seriesMatches") or [])`: a non-dict
`seriesAdWrapper` contributes nothing. -/
def loop_series : List JVal → Except PyErr (List MatchSummary)
  | [] => .ok []
  | s :: rest => do
    let wrap ← dictGet s "seriesAdWrapper"
    let here ←
      match wrap with
      | .objVal _ => do
        let series_name ← dictGetD wrap "seriesName" (.strVal "Series")
        let ms ← pyIter (pyOr (← dictGet wrap "matches") (.arrVal []))
        loop_matches series_name ms
      | _ => .ok []
    let more ← loop_series rest
    .ok (here ++ more)

/-- `for bucket in (root.get("typeMatches") or [])`. -/
def loop_buckets : List JVal → Except PyErr (List MatchSummary)
  | [] => .ok []
  | bucket :: rest => do
    let ss ← pyIter (pyOr (← dictGet bucket "seriesMatches") (.arrVal []))
    let here ← loop_series ss
    let more ← loop_buckets rest
    .ok (here ++ more)

/-- `collect_matches` (src/pages/Live_Match.py:161-186): flatten
`typeMatches → seriesMatches → seriesAdWrapper → matches` into a list of
summaries.  `root.get` raises on a non-dict root; iterating a truthy
non-iterable raises `TypeError`. -/
def collect_matches (root : JVal) : Except PyErr (List MatchSummary) := do
  let buckets ← pyIter (pyOr (← dictGet root "typeMatches") (.arrVal []))
  loop_buckets buckets

/-- Outcome of one `requests.get` call (the HTTP transport is a
collaborator): either a response with a status code and a body, or a
`requests.RequestException`. -/
inductive HttpResult where
  | response (status : Nat) (body : String) : HttpResult
  | failure (msg : String) : HttpResult

/-- `fetch_rankings` (src/pages/Player_Stats.py:65-75), as a function of
the HTTP outcome and of the JSON decoder (`parse`; `none` models a body
`r.json()` cannot decode — that exception is NOT caught by the
`except requests.RequestException` clause, so it propagates). -/
def fetch_rankings (parse : String → Option JVal) (r : HttpResult) :
    Except PyErr (Option JVal × Option String) :=
  match r with
  | .failure msg => .ok (none, some ("Network error: " ++ msg))
  | .response status body =>
    if status = 200 then
      match parse body with
      | some data => .ok (some data, none)
      | none => .error .valueError
    else
      .ok (none, some ("API error " ++ toString status ++ ": "
        ++ String.mk (body.data.take 160)))

/-- A mapped search result `{id, name, country}`
(src/pages/Player_Stats.py:112). -/
structure PlayerRef where
  id : String
  name : String
  country : String

/-- Python `a or b or ... or d` over a list of values (first truthy,
else the final value). -/
def pyOrChain (d : JVal) : List JVal → JVal
  | [] => d
  | v :: rest => if truthy v then v else pyOrChain d rest

/-- The per-item mapping of `search_players`: `p.get` raises on a
non-dict item (caught by the enclosing `except`, which abandons the whole
candidate). -/
def map_player (p : JVal) : Except PyErr (Option PlayerRef) :=
  match p with
  | .objVal fs =>
    let pid := pyOrChain (lookupD fs "pid" .null)
      [lookupD fs "id" .null, lookupD fs "playerId" .null, lookupD fs "idPlayer" .null]
    let pname := pyOrChain (lookupD fs "playerName" .null)
      [lookupD fs "name" .null, lookupD fs "fullName" .null]
    let pcountry := pyOrChain (.strVal "")
      [lookupD fs "country" .null, lookupD fs "teamName" .null, lookupD fs "team" .null]
    if truthy pid && truthy pname then
      .ok (some { id := pyStr pid, name := pyStr pname, country := pyStr pcountry })
    else .ok none
  | _ => .error .attributeError

/-- `for p in items: ... out.append(...)`. -/
def map_players : List JVal → Except PyErr (List PlayerRef)
  | [] => .ok []
  | p :: rest => do
    let one ← map_player p
    let more ← map_players rest
    .ok (match one with
      | some x => x :: more
      | none => more)

/-- The body of one candidate iteration of `search_players`
(src/pages/Player_Stats.py:89-118): `.ok (some out)` is the early
`return out, None`; `.ok none` falls through to the next candidate;
`.error` models an exception, which both `except` clauses turn into
`continue`. -/
def candidate_body (parse : String → Option JVal) (r : HttpResult) :
    Except PyErr (Option (List PlayerRef)) :=
  match r with
  | .failure _ => .error .requestError
  | .response status body =>
    if status = 200 then
      match parse body with
      | none => .error .valueError
      | some data =>
        match data with
        | .objVal fs =>
          let items := pyOrChain (.arrVal [])
            [lookupD fs "player" .null, lookupD fs "players" .null,
             lookupD fs "list" .null, lookupD fs "results" .null,
             lookupD fs "result" .null]
          match items with
          | .arrVal ps =>
            if ps.isEmpty then .ok none
            else do
              let out ← map_players ps
              if out.isEmpty then .ok none else .ok (some out)
          | _ => .ok none
        | _ => .error .attributeError
    else .ok none

/-- The candidate loop of `search_players` with the `tried` counter:
each iteration increments `tried` before doing anything that can fail,
and exceptions `continue` to the next candidate. -/
def search_loop (parse : String → Option JVal) :
    List HttpResult → Nat → Option (List PlayerRef) × Option String
  | [], tried =>
    if tried = 0 then (none, some "Could not reach search service.")
    else (some [], none)
  | r :: rest, tried =>
    match candidate_body parse r with
    | .ok (some out) => (some out, none)
    | .ok none => search_loop parse rest (tried + 1)
    | .error _ => search_loop parse rest (tried + 1)

/-- `search_players` (src/pages/Player_Stats.py:78-121), as a function of
the JSON decoder and of the HTTP outcomes of the four fixed candidate
endpoint variants. -/
def search_players (parse : String → Option JVal) (r1 r2 r3 r4 : HttpResult) :
    Option (List PlayerRef) × Option String :=
  search_loop parse [r1, r2, r3, r4] 0

/-! ### Spec-side reformulations

Declarative restatements of the contracts in spec.md, to be compared with
the embedded source functions. -/

/-- Spec §4.2: ordered first-match over the field values, skipping values
that are not strings, defaulting to UNKNOWN. -/
def orderedFormat : List JVal → String
  | [] => "UNKNOWN"
  | .strVal s :: rest =>
    match checkTag (pyUpper s) with
    | some t => t
    | none => orderedFormat rest
  | _ :: rest => orderedFormat rest

/-- Spec §4.4: the contract of the renderer on a mapping, stated directly on
the field list: `"runs/wkts (overs)"` when wickets is present (not
`None`), `"runs (overs)"` when only runs is, `""` otherwise; the overs
slot is the explicit `overs` field verbatim, else the ball count as
`balls//6 . balls%6`, else `"-"`. -/
def spec_show_innings (fs : List (String × JVal)) : String :=
  let runs := lookupD fs "runs" .null
  let wkts := lookupD fs "wickets" .null
  let overs := lookupD fs "overs" .null
  let oversDisp :=
    if isNull overs then
      match asPyInt (lookupD fs "balls" .null) with
      | some n => toString (Int.fdiv n 6) ++ "." ++ toString (Int.emod n 6)
      | none => "-"
    else pyStr overs
  if !(isNull wkts) then pyStr runs ++ "/" ++ pyStr wkts ++ " (" ++ oversDisp ++ ")"
  else if !(isNull runs) then pyStr runs ++ " (" ++ oversDisp ++ ")"
  else ""

/-- Spec §4.5: the extras priority order stated directly on the field
list: scalar `extras`, then scalar `extraRuns`, then the breakdown sum
(under `extras` or `extraDetail`) when positive, then the sentinel. -/
def spec_extract_extras (fs : List (String × JVal)) : JVal :=
  let e := lookupD fs "extras" .null
  if isScalarExtras e then e
  else
    let er := lookupD fs "extraRuns" .null
    if isScalarExtras er then er
    else
      let ed := if isDict e then e else lookupD fs "extraDetail" .null
      match ed with
      | .objVal efs =>
        let total := sumLoop efs ["byes", "legByes", "wides", "noBalls", "penalty"] (.intVal 0)
        if 0 < (numQ total).getD 0 then total else .strVal "—"
      | _ => .strVal "—"

/-- The first candidate variant that yields a mapped, non-empty result
list (spec §6: "multiple historical path variants tried in sequence until
one returns a non-empty result"). -/
def first_yield (parse : String → Option JVal) : List HttpResult → Option (List PlayerRef)
  | [] => none
  | r :: rest =>
    match candidate_body parse r with
    | .ok (some out) => some out
    | _ => first_yield parse rest

/-! ### Helper lemmas -/

theorem ok_bind {α β : Type} (a : α) (f : α → Except PyErr β) :
    (Except.ok a >>= f) = f a := rfl

theorem orDict_obj (fs : List (String × JVal)) : orDict (.objVal fs) = .objVal fs := by
  cases fs <;> rfl

theorem guessLoop_obj (fs : List (String × JVal)) :
    ∀ ks, guessLoop (.objVal fs) ks =
      .ok (orderedFormat (ks.map (fun k => lookupD fs k .null))) := by
  intro ks
  induction ks with
  | nil => rfl
  | cons k ks ih =>
    simp only [guessLoop, orDict_obj, dictGet, dictGetD, ok_bind, List.map]
    cases h : lookupD fs k .null with
    | strVal s =>
      simp only [orderedFormat]
      cases hc : checkTag (pyUpper s) <;> simp [hc, ih]
    | _ => simp_all [orderedFormat]

/-- The embedded classifier agrees with the declarative ordered-fallback
cascade on every mapping input. -/
theorem guess_format_obj (fs : List (String × JVal)) :
    guess_format (.objVal fs) =
      .ok (orderedFormat
        [lookupD fs "matchFormat" .null, lookupD fs "matchDesc" .null,
         lookupD fs "stateTitle" .null, lookupD fs "seriesName" .null]) := by
  simp only [guess_format, orDict_obj, dictGet, dictGetD, ok_bind]
  cases h : lookupD fs "matchFormat" .null with
  | strVal s =>
    simp only [orderedFormat]
    cases checkTag (pyUpper s) <;> simp [guessLoop_obj]
  | _ => simp_all [orderedFormat, guessLoop_obj]

theorem pure_ok {α : Type} (a : α) : (pure a : Except PyErr α) = .ok a := rfl

@[simp] theorem pyStr_str (s : String) : pyStr (.strVal s) = s := rfl

@[simp] theorem isDict_obj (fs : List (String × JVal)) : isDict (.objVal fs) = true := rfl

theorem ok_ite {α : Type} (c : Prop) [Decidable c] (a b : α) :
    (if c then (Except.ok a : Except PyErr α) else .ok b) = .ok (if c then a else b) := by
  split <;> rfl

/-- The embedded renderer agrees with the declarative rendering contract
on every mapping input (and in particular never raises there). -/
theorem show_innings_obj (fs : List (String × JVal)) :
    show_innings (.objVal fs) = .ok (spec_show_innings fs) := by
  cases fs with
  | nil => rfl
  | cons p rest =>
    simp only [show_innings, spec_show_innings, isDict, truthy, List.isEmpty_cons,
      Bool.not_false, Bool.and_self, Bool.not_true, Bool.false_and, Bool.true_and,
      if_false, dictGet, dictGetD, ok_bind, pure_ok]
    cases ho : isNull (lookupD (p :: rest) "overs" .null) <;>
      cases hb : asPyInt (lookupD (p :: rest) "balls" .null) <;>
        cases hr : isNull (lookupD (p :: rest) "runs" .null) <;>
          cases hw : isNull (lookupD (p :: rest) "wickets" .null) <;>
            simp [hr, hw, ok_bind, pure_ok]

/-- The embedded extras normalizer agrees with the declarative priority
contract on every mapping input (and in particular never raises
there). -/
theorem extract_extras_obj (fs : List (String × JVal)) :
    _extract_extras (.objVal fs) = .ok (spec_extract_extras fs) := by
  simp only [_extract_extras, spec_extract_extras, isDict_obj, Bool.not_true, if_false,
    dictGet, dictGetD, ok_bind, pure_ok]
  cases h1 : isScalarExtras (lookupD fs "extras" .null) with
  | true => simp [ok_bind, pure_ok]
  | false =>
    cases h2 : isScalarExtras (lookupD fs "extraRuns" .null) with
    | true => simp [ok_bind, pure_ok]
    | false =>
      cases h3 : isDict (lookupD fs "extras" .null) with
      | true =>
        cases he : lookupD fs "extras" .null <;> simp_all [isDict, ok_bind, pure_ok, ok_ite]
      | false =>
        cases he : lookupD fs "extraDetail" .null <;> simp [he, ok_bind, pure_ok, ok_ite]

theorem mem_insertDescCand {c x : Cand} :
    ∀ {l : List Cand}, c ∈ insertDescCand x l → c = x ∨ c ∈ l
  | [], h => by
    simp only [insertDescCand, List.mem_singleton] at h
    exact Or.inl h
  | y :: ys, h => by
    simp only [insertDescCand] at h
    split at h
    · rcases List.mem_cons.mp h with h1 | h2
      · exact Or.inr (h1 ▸ List.mem_cons_self _ _)
      · rcases mem_insertDescCand h2 with h3 | h4
        · exact Or.inl h3
        · exact Or.inr (List.mem_cons_of_mem _ h4)
    · rcases List.mem_cons.mp h with h1 | h2
      · exact Or.inl h1
      · exact Or.inr h2

theorem mem_sortDescCands {c : Cand} :
    ∀ {l : List Cand}, c ∈ sortDescCands l → c ∈ l
  | [], h => by simp [sortDescCands] at h
  | x :: xs, h => by
    simp only [sortDescCands] at h
    rcases mem_insertDescCand h with h1 | h2
    · exact h1 ▸ List.mem_cons_self _ _
    · exact List.mem_cons_of_mem _ (mem_sortDescCands h2)

/-- The head of the stable descending sort is the first-enumerated
candidate when its key dominates every other key. -/
theorem sortDescCands_cons_max (x : Cand) (l : List Cand)
    (hmax : ∀ c ∈ l, c.1 ≤ x.1) :
    ∃ t, sortDescCands (x :: l) = x :: t := by
  show ∃ t, insertDescCand x (sortDescCands l) = x :: t
  cases hs : sortDescCands l with
  | nil => exact ⟨[], rfl⟩
  | cons y ys =>
    have hy : y ∈ l := mem_sortDescCands (hs ▸ List.mem_cons_self y ys)
    have hnlt : ¬ x.1 < y.1 := not_lt.mpr (hmax y hy)
    exact ⟨y :: ys, by simp [insertDescCand, hnlt]⟩

/-- Hypothesis shape for an `inngs1` slot of the selector: either falsy
(contributing no candidate) or a mapping whose overs key is bounded. -/
def slotBound (v : JVal) (q : ℚ) : Prop :=
  truthy v = false ∨ ∃ fs, v = .objVal fs ∧ overs_to_float (lookupD fs "overs" .null) ≤ q

/-- Hypothesis shape for `inningsScoreList`: every dict entry has a
bounded overs key (vacuous when the value is not a list). -/
def islBound (v : JVal) (q : ℚ) : Prop :=
  ∀ xs, v = .arrVal xs → ∀ x ∈ xs, ∀ gs, x = .objVal gs →
    overs_to_float (lookupD gs "overs" .null) ≤ q

theorem slotStep_extends {v : JVal} {q : ℚ} (hb : slotBound v q)
    (cands : List Cand) (bt : String) :
    ∃ extra, slotStep cands bt v = .ok (cands ++ extra) ∧ ∀ c ∈ extra, c.1 ≤ q := by
  rcases hb with hf | ⟨fs, rfl, hle⟩
  · refine ⟨[], ?_, by simp⟩
    simp [slotStep, hf]
  · cases ht : truthy (.objVal fs) with
    | true =>
      refine ⟨[(overs_to_float (lookupD fs "overs" .null), some bt, .objVal fs)], ?_, ?_⟩
      · simp [slotStep, ht, dictGet, dictGetD, ok_bind]
      · intro c hc
        rw [List.mem_singleton] at hc
        subst hc
        exact hle
    | false =>
      refine ⟨[], ?_, by simp⟩
      simp [slotStep, ht]

theorem islStep_extends (t1s t2s : String) (q : ℚ) :
    ∀ (xs : List JVal),
      (∀ x ∈ xs, ∀ gs, x = .objVal gs → overs_to_float (lookupD gs "overs" .null) ≤ q) →
      ∀ cands, ∃ extra, islStep t1s t2s cands xs = .ok (cands ++ extra) ∧
        ∀ c ∈ extra, c.1 ≤ q := by
  intro xs
  induction xs with
  | nil =>
    intro _ cands
    refine ⟨[], ?_, by simp⟩
    simp [islStep]
  | cons x rest ih =>
    intro hb cands
    have hrest := fun y hy => hb y (List.mem_cons_of_mem _ hy)
    cases x with
    | objVal gs =>
      have hq := hb _ (List.mem_cons_self _ _) gs rfl
      obtain ⟨extra, he, hbd⟩ := ih hrest
        (cands ++ [(overs_to_float (lookupD gs "overs" .null),
          if pyEqInt (lookupD gs "batTeamId" .null) 1 then some t1s
          else if pyEqInt (lookupD gs "batTeamId" .null) 2 then some t2s else none,
          .objVal gs)])
      refine ⟨(overs_to_float (lookupD gs "overs" .null),
          if pyEqInt (lookupD gs "batTeamId" .null) 1 then some t1s
          else if pyEqInt (lookupD gs "batTeamId" .null) 2 then some t2s else none,
          .objVal gs) :: extra, ?_, ?_⟩
      · simp only [islStep, isDict_obj, Bool.not_true, if_false, dictGet, dictGetD, ok_bind]
        rw [he, List.append_assoc]
        rfl
      · intro c hc
        rcases List.mem_cons.mp hc with h1 | h2
        · subst h1; exact hq
        · exact hbd c h2
    | null =>
      obtain ⟨extra, he, hbd⟩ := ih hrest cands
      exact ⟨extra, by simpa [islStep, isDict] using he, hbd⟩
    | boolVal b =>
      obtain ⟨extra, he, hbd⟩ := ih hrest cands
      exact ⟨extra, by simpa [islStep, isDict] using he, hbd⟩
    | intVal n =>
      obtain ⟨extra, he, hbd⟩ := ih hrest cands
      exact ⟨extra, by simpa [islStep, isDict] using he, hbd⟩
    | floatVal f =>
      obtain ⟨extra, he, hbd⟩ := ih hrest cands
      exact ⟨extra, by simpa [islStep, isDict] using he, hbd⟩
    | strVal s =>
      obtain ⟨extra, he, hbd⟩ := ih hrest cands
      exact ⟨extra, by simpa [islStep, isDict] using he, hbd⟩
    | arrVal ys =>
      obtain ⟨extra, he, hbd⟩ := ih hrest cands
      exact ⟨extra, by simpa [islStep, isDict] using he, hbd⟩

/-- When both second-innings slots are truthy mappings, the candidate
enumeration starts with team1-inngs2 then team2-inngs2, and every later
candidate (first-innings slots, `inningsScoreList` entries) obeys the
supplied key bound. -/
theorem collect_cands_structure (sf : List (String × JVal)) (t1s t2s : String)
    (f1 f2 : List (String × JVal)) (q : ℚ)
    (h1 : pyOr (g (.objVal sf) ["team1Score", "inngs2"] .null) (.objVal []) = .objVal f1)
    (h1t : truthy (.objVal f1) = true)
    (h2 : pyOr (g (.objVal sf) ["team2Score", "inngs2"] .null) (.objVal []) = .objVal f2)
    (h2t : truthy (.objVal f2) = true)
    (hi1 : slotBound (pyOr (g (.objVal sf) ["team1Score", "inngs1"] .null) (.objVal [])) q)
    (hi2 : slotBound (pyOr (g (.objVal sf) ["team2Score", "inngs1"] .null) (.objVal [])) q)
    (hisl : islBound (lookupD sf "inningsScoreList" .null) q) :
    ∃ rest, collect_cands (.objVal sf) t1s t2s =
        .ok ((overs_to_float (lookupD f1 "overs" .null), some t1s, .objVal f1) ::
             (overs_to_float (lookupD f2 "overs" .null), some t2s, .objVal f2) :: rest) ∧
      ∀ c ∈ rest, c.1 ≤ q := by
  have e1 : slotStep [] t1s (.objVal f1) =
      .ok [(overs_to_float (lookupD f1 "overs" .null), some t1s, .objVal f1)] := by
    simp [slotStep, h1t, dictGet, dictGetD, ok_bind]
  have e2 : slotStep [(overs_to_float (lookupD f1 "overs" .null), some t1s, .objVal f1)]
      t2s (.objVal f2) =
      .ok [(overs_to_float (lookupD f1 "overs" .null), some t1s, .objVal f1),
           (overs_to_float (lookupD f2 "overs" .null), some t2s, .objVal f2)] := by
    simp [slotStep, h2t, dictGet, dictGetD, ok_bind]
  obtain ⟨e3, he3, hb3⟩ := slotStep_extends hi1
    [(overs_to_float (lookupD f1 "overs" .null), some t1s, .objVal f1),
     (overs_to_float (lookupD f2 "overs" .null), some t2s, .objVal f2)] t1s
  obtain ⟨e4, he4, hb4⟩ := slotStep_extends hi2
    ([(overs_to_float (lookupD f1 "overs" .null), some t1s, .objVal f1),
      (overs_to_float (lookupD f2 "overs" .null), some t2s, .objVal f2)] ++ e3) t2s
  cases hv : lookupD sf "inningsScoreList" .null
  case arrVal xs =>
    obtain ⟨e5, he5, hb5⟩ := islStep_extends t1s t2s q xs (hisl xs hv)
      (([(overs_to_float (lookupD f1 "overs" .null), some t1s, .objVal f1),
         (overs_to_float (lookupD f2 "overs" .null), some t2s, .objVal f2)] ++ e3) ++ e4)
    refine ⟨(e3 ++ e4) ++ e5, ?_, ?_⟩
    · simp only [collect_cands, h1, h2, e1, ok_bind, e2, he3, he4, dictGet, dictGetD, hv, he5]
      simp [List.append_assoc]
    · intro c hc
      rcases List.mem_append.mp hc with h | h
      · rcases List.mem_append.mp h with h' | h'
        · exact hb3 c h'
        · exact hb4 c h'
      · exact hb5 c h
  all_goals
    refine ⟨e3 ++ e4, ?_, ?_⟩
    · simp only [collect_cands, h1, h2, e1, ok_bind, e2, he3, he4, dictGet, dictGetD, hv]
      simp [List.append_assoc]
    · intro c hc
      rcases List.mem_append.mp hc with h | h
      · exact hb3 c h
      · exact hb4 c h

theorem search_loop_ok (parse : String → Option JVal) :
    ∀ (rs : List HttpResult) (tried : Nat), rs ≠ [] ∨ tried ≠ 0 →
      search_loop parse rs tried = (some ((first_yield parse rs).getD []), none)
  | [], tried, h => by
    have ht : tried ≠ 0 := by
      rcases h with h | h
      · exact absurd rfl h
      · exact h
    simp [search_loop, first_yield, ht]
  | r :: rest, tried, _ => by
    simp only [search_loop, first_yield]
    cases hb : candidate_body parse r with
    | ok o =>
      cases o with
      | some out => simp
      | none =>
        simpa using search_loop_ok parse rest (tried + 1) (Or.inr (Nat.succ_ne_zero tried))
    | error e =>
      simpa using search_loop_ok parse rest (tried + 1) (Or.inr (Nat.succ_ne_zero tried))

theorem strData_append (a b : String) : (a ++ b).data = a.data ++ b.data := by
  cases a
  cases b
  rfl

theorem strMk_data (l : List Char) : (String.mk l).data = l := rfl

theorem strMk_length (l : List Char) : (String.mk l).length = l.length := rfl

theorem leadMatch_append_self (ns : List Char) :
    ∀ t, leadMatch ns (ns ++ t) = true := by
  induction ns with
  | nil => intro t; rfl
  | cons n ns ih => intro t; simp [leadMatch, ih]

theorem hasSub_of_append (ns pre post : List Char) :
    hasSub ns (pre ++ (ns ++ post)) = true := by
  induction pre with
  | nil =>
    cases hnp : ns ++ post with
    | nil =>
      rcases List.append_eq_nil.mp hnp with ⟨h1, _⟩
      subst h1
      simp [hasSub, leadMatch]
    | cons a as =>
      have : leadMatch ns (ns ++ post) = true := leadMatch_append_self ns post
      simp only [List.nil_append, hasSub, hnp] at this ⊢
      simp [this]
  | cons p pre ih =>
    simp [hasSub, ih]

/-! ### Claims -/

/-- C1, counterexample: the claim says every normalizer component returns
without raising on every document of the generic JSON tree type, but the
payload flattener applied to an array raises `AttributeError` (Python
lists have no `.get`), exactly as `collect_matches([])` would. -/
theorem flattener_raises_on_array_input :
    collect_matches (.arrVal []) = .error .attributeError := rfl

/-- C1 (corrected): the overs converter, the score renderer and the
extras normalizer return a result on every document (the converter is a
total function by construction; the renderer and the normalizer are
proved to take their guarded `.ok` path on every input), and the format
classifier does so on every mapping; but the payload flattener, the
format classifier and the innings selector each raise on some document
that puts a truthy non-mapping where the code calls a mapping
accessor. -/
theorem normalizer_no_raise_corrected :
    (∀ inn : JVal, ∃ s, show_innings inn = .ok s) ∧
    (∀ inn : JVal, ∃ r, _extract_extras inn = .ok r) ∧
    (∀ fs : List (String × JVal), ∃ r, guess_format (.objVal fs) = .ok r) ∧
    (∃ root e, collect_matches root = .error e) ∧
    (∃ info e, guess_format info = .error e) ∧
    (∃ score t1s t2s e, pick_current_innings score t1s t2s = .error e) := by
  refine ⟨?_, ?_, ?_, ?_, ?_, ?_⟩
  · intro inn
    cases inn
    case objVal fs => exact ⟨_, show_innings_obj fs⟩
    all_goals exact ⟨"", rfl⟩
  · intro inn
    cases inn
    case objVal fs => exact ⟨_, extract_extras_obj fs⟩
    all_goals exact ⟨.strVal "—", rfl⟩
  · intro fs
    exact ⟨_, guess_format_obj fs⟩
  · exact ⟨.strVal "x", .attributeError, rfl⟩
  · exact ⟨.arrVal [.null], .attributeError, rfl⟩
  · exact ⟨.null, "", "", .attributeError, rfl⟩

/-- C2, counterexample: the claim says a mapping whose `typeMatches`
value is not a list flattens to the empty sequence, but iterating the
truthy non-list value `5` raises `TypeError`. -/
theorem flattener_raises_on_nonlist_typeMatches :
    collect_matches (.objVal [("typeMatches", .intVal 5)]) = .error .typeError := rfl

/-- C2 (corrected): for every mapping input whose `typeMatches` key is
absent or falsy (`None`, `0`, `""`, an empty container, `False`), the
flattener returns the empty sequence and does not raise; a non-mapping
input, or a truthy non-list `typeMatches`, raises instead. -/
theorem flattener_empty_corrected (fs : List (String × JVal))
    (h : truthy (lookupD fs "typeMatches" .null) = false) :
    collect_matches (.objVal fs) = .ok [] := by
  simp [collect_matches, dictGet, dictGetD, ok_bind, pyOr, h, pyIter, loop_buckets]

/-- C2, witness: the empty mapping flattens to the empty sequence. -/
theorem flattener_empty_witness : collect_matches (.objVal []) = .ok [] :=
  flattener_empty_corrected [] rfl

/-- C3 (confirmed): the selector enumerates team1-inngs2 first; whenever
both second-innings slots are truthy mappings with equal overs keys `q`
and every other candidate (first-innings slots, `inningsScoreList`
entries) has key at most `q`, the stable descending sort puts the
team1-inngs2 record first and the selector returns it. -/
theorem innings_selector_tie_team1_inngs2 (sf : List (String × JVal)) (t1s t2s : String)
    (f1 f2 : List (String × JVal)) (q : ℚ)
    (h1 : pyOr (g (.objVal sf) ["team1Score", "inngs2"] .null) (.objVal []) = .objVal f1)
    (h1t : truthy (.objVal f1) = true)
    (h2 : pyOr (g (.objVal sf) ["team2Score", "inngs2"] .null) (.objVal []) = .objVal f2)
    (h2t : truthy (.objVal f2) = true)
    (hq1 : overs_to_float (lookupD f1 "overs" .null) = q)
    (hq2 : overs_to_float (lookupD f2 "overs" .null) = q)
    (hi1 : slotBound (pyOr (g (.objVal sf) ["team1Score", "inngs1"] .null) (.objVal [])) q)
    (hi2 : slotBound (pyOr (g (.objVal sf) ["team2Score", "inngs1"] .null) (.objVal [])) q)
    (hisl : islBound (lookupD sf "inningsScoreList" .null) q) :
    ∃ bt bw, pick_current_innings (.objVal sf) t1s t2s = .ok (bt, bw, .objVal f1) := by
  obtain ⟨rest, hc, hrest⟩ :=
    collect_cands_structure sf t1s t2s f1 f2 q h1 h1t h2 h2t hi1 hi2 hisl
  have hmax : ∀ c ∈ (overs_to_float (lookupD f2 "overs" .null), some t2s, JVal.objVal f2) :: rest,
      c.1 ≤ (overs_to_float (lookupD f1 "overs" .null), some t1s, JVal.objVal f1).1 := by
    intro c hcm
    rcases List.mem_cons.mp hcm with h | h
    · subst h; simp [hq1, hq2]
    · simpa [hq1] using hrest c h
  obtain ⟨t, hsort⟩ := sortDescCands_cons_max _ _ hmax
  refine ⟨optOrDash (some t1s), strOrDash (if optEqStr (some t1s) t1s then t2s else t1s), ?_⟩
  simp only [pick_current_innings, hc, ok_bind, hsort]
  have hp : pyOr (.objVal f1) (.objVal []) = .objVal f1 := by simp [pyOr, h1t]
  simp [hp]

/-- C3, witness: a score with both second-innings slots at 10 overs
selects the team1-inngs2 record. -/
theorem innings_selector_tie_witness :
    ∃ bt bw, pick_current_innings
      (.objVal [("team1Score", .objVal [("inngs2", .objVal [("overs", .intVal 10)])]),
                ("team2Score", .objVal [("inngs2", .objVal [("overs", .intVal 10)])])])
      "IND" "AUS" = .ok (bt, bw, .objVal [("overs", .intVal 10)]) :=
  innings_selector_tie_team1_inngs2
    [("team1Score", .objVal [("inngs2", .objVal [("overs", .intVal 10)])]),
     ("team2Score", .objVal [("inngs2", .objVal [("overs", .intVal 10)])])]
    "IND" "AUS" [("overs", .intVal 10)] [("overs", .intVal 10)] 10
    rfl rfl rfl rfl rfl rfl (Or.inl rfl) (Or.inl rfl) (fun _ h => nomatch h)

/-- C4 (confirmed): the classifier is exactly the ordered first-match
cascade over `matchFormat`, `matchDesc`, `stateTitle`, `seriesName` with
the case-insensitive TEST/ODI/T20 substring test, skipping non-string
fields and defaulting to UNKNOWN; in particular
`matchFormat="ODI one-dayer"` with `matchDesc="T20 Blast"` classifies as
ODI, and a non-string `matchFormat` is skipped, not an error. -/
theorem format_classifier_order :
    (∀ fs : List (String × JVal),
      guess_format (.objVal fs) =
        .ok (orderedFormat
          [lookupD fs "matchFormat" .null, lookupD fs "matchDesc" .null,
           lookupD fs "stateTitle" .null, lookupD fs "seriesName" .null])) ∧
    guess_format (.objVal [("matchFormat", .strVal "ODI one-dayer"),
      ("matchDesc", .strVal "T20 Blast")]) = .ok "ODI" ∧
    guess_format (.objVal [("matchFormat", .intVal 7),
      ("matchDesc", .strVal "T20 Blast")]) = .ok "T20" ∧
    guess_format (.objVal []) = .ok "UNKNOWN" :=
  ⟨guess_format_obj, rfl, rfl, rfl⟩

/-- C5 (confirmed, with floats modelled as rationals): the conversion
maps `None` to `-1.0`, numbers to themselves, a string that splits at the
dot into parsable parts `o` and `b` to `o + b/6`, and a dot-free
unparsable string to `-1.0`; in particular `"12.3" ↦ 12.5` and
`20 ↦ 20.0`. -/
theorem overs_to_float_rule :
    (overs_to_float .null = -1) ∧
    (∀ n : Int, overs_to_float (.intVal n) = (n : ℚ)) ∧
    (∀ x : ℚ, overs_to_float (.floatVal x) = x) ∧
    (∀ (s os bs : String) (fo : ℚ) (ib : Int),
      pyHasDot s = true → pySplitDot s = [os, bs] →
      pyParseFloat os = some fo → pyParseInt bs = some ib →
      overs_to_float (.strVal s) = fo + (ib : ℚ) / 6) ∧
    (∀ s : String, pyHasDot s = false → pyParseFloat s = none →
      overs_to_float (.strVal s) = -1) ∧
    (overs_to_float (.strVal "12.3") = 12.5) ∧
    (overs_to_float (.intVal 20) = 20) := by
  refine ⟨rfl, fun n => rfl, fun x => rfl, ?_, ?_, ?_, rfl⟩
  · intro s os bs fo ib hd hsp hf hi
    simp only [overs_to_float, pyStr_str, hd, if_true, hsp, hf, hi]
  · intro s hd hf
    simp only [overs_to_float, pyStr_str, hd, hf]
    simp
  · rw [show overs_to_float (.strVal "12.3") = 12 + (3 : ℚ) / 6 from rfl]
    norm_num

/-- C5, witness: `"12.3"` takes the balls-notation branch with parts 12
and 3, and `"ouch"` takes the unparsable branch. -/
theorem overs_to_float_rule_witness :
    overs_to_float (.strVal "12.3") = (12 : ℚ) + ((3 : Int) : ℚ) / 6 ∧
    overs_to_float (.strVal "ouch") = -1 :=
  ⟨overs_to_float_rule.2.2.2.1 "12.3" "12" "3" 12 3 rfl rfl rfl rfl,
   overs_to_float_rule.2.2.2.2.1 "ouch" rfl rfl⟩

/-- C6 (confirmed): on every mapping the renderer produces exactly the
contracted string — `"runs/wkts (overs)"` when wickets is non-`None`,
`"runs (overs)"` when only runs is, `""` otherwise, with the overs slot
falling back from the explicit field to `balls//6 . balls%6` to `"-"` —
and the three example documents render as claimed. -/
theorem score_renderer_contract :
    (∀ fs : List (String × JVal), show_innings (.objVal fs) = .ok (spec_show_innings fs)) ∧
    show_innings (.objVal [("runs", .intVal 120), ("wickets", .intVal 4),
      ("overs", .strVal "18.2")]) = .ok "120/4 (18.2)" ∧
    show_innings (.objVal [("runs", .intVal 45), ("wickets", .null), ("overs", .null),
      ("balls", .intVal 13)]) = .ok "45 (2.1)" ∧
    show_innings (.objVal []) = .ok "" :=
  ⟨show_innings_obj, rfl, rfl, rfl⟩

/-- C7 (confirmed): on every mapping the extras normalizer follows
exactly the contracted priority order — scalar `extras`, scalar
`extraRuns`, positive breakdown sum under `extras`/`extraDetail`, then
the sentinel `"—"` — and the four example documents normalize as
claimed. -/
theorem extras_normalizer_contract :
    (∀ fs : List (String × JVal), _extract_extras (.objVal fs) = .ok (spec_extract_extras fs)) ∧
    _extract_extras (.objVal [("extras", .intVal 7)]) = .ok (.intVal 7) ∧
    _extract_extras (.objVal [("extraDetail", .objVal [("byes", .intVal 2),
      ("wides", .intVal 3)])]) = .ok (.intVal 5) ∧
    _extract_extras (.objVal [("extraDetail", .objVal [("byes", .intVal 0)])]) =
      .ok (.strVal "—") ∧
    _extract_extras (.objVal []) = .ok (.strVal "—") :=
  ⟨extract_extras_obj, rfl, rfl, rfl, rfl⟩

/-- C8 (confirmed): on any non-200 response the rankings fetch returns no
data and the error string `"API error {status}: {body[:160]}"` — which
contains the status code and a body preview of at most 160 characters —
and does not raise. -/
theorem fetch_rankings_non200 (parse : String → Option JVal) (status : Nat) (body : String)
    (h : ¬ status = 200) :
    fetch_rankings parse (.response status body) =
      .ok (none, some ("API error " ++ toString status ++ ": "
        ++ String.mk (body.data.take 160))) ∧
    pyInStr (toString status)
      ("API error " ++ toString status ++ ": " ++ String.mk (body.data.take 160)) = true ∧
    (String.mk (body.data.take 160)).length ≤ 160 := by
  refine ⟨?_, ?_, ?_⟩
  · simp [fetch_rankings, h]
  · simp only [pyInStr, strData_append, strMk_data, List.append_assoc]
    exact hasSub_of_append _ _ _
  · rw [strMk_length, List.length_take]
    exact min_le_left _ _

/-- C8, witness: an HTTP 500 with body `"boom"` yields the error string
with a short preview and no data. -/
theorem fetch_rankings_non200_witness :
    fetch_rankings (fun _ => none) (.response 500 "boom") =
      .ok (none, some ("API error " ++ toString 500 ++ ": "
        ++ String.mk ("boom".data.take 160))) ∧
    pyInStr (toString 500)
      ("API error " ++ toString 500 ++ ": " ++ String.mk ("boom".data.take 160)) = true ∧
    (String.mk ("boom".data.take 160)).length ≤ 160 :=
  fetch_rankings_non200 (fun _ => none) 500 "boom" (by decide)

/-- C9 (confirmed): whatever the four candidate variants return, the
search returns the first yielded mapped list (or `[]`) paired with error
component `None`; in particular the "Could not reach search service"
branch is unreachable, because the candidate list is non-empty and every
iteration counts as tried. -/
theorem search_players_error_free (parse : String → Option JVal) (r1 r2 r3 r4 : HttpResult) :
    search_players parse r1 r2 r3 r4 =
      (some ((first_yield parse [r1, r2, r3, r4]).getD []), none) :=
  search_loop_ok parse [r1, r2, r3, r4] 0 (Or.inl (by simp))

/-- C10 (confirmed): when the winning candidate carries the `None`
batting tag (an `inningsScoreList` entry whose `batTeamId` is neither 1
nor 2), the selector returns the sentinel `"—"` as batting team and
the non-empty short name of team1 as bowling team, because
`bat_team == t1s` is false for `None`. -/
theorem selector_unknown_bat_team (score : JVal) (t1s t2s : String)
    (l rest : List Cand) (q : ℚ) (inn : JVal)
    (hl : collect_cands score t1s t2s = .ok l)
    (hs : sortDescCands l = (q, none, inn) :: rest)
    (ht : ¬ t1s = "") :
    pick_current_innings score t1s t2s = .ok ("—", t1s, pyOr inn (.objVal [])) := by
  simp only [pick_current_innings, hl, ok_bind, hs]
  simp [optEqStr, optOrDash, strOrDash, ht]

/-- C10, witness: a score whose only candidate is an `inningsScoreList`
entry with `batTeamId = 5` yields batting team `"—"` and bowling team
`"IND"`. -/
theorem selector_unknown_bat_team_witness :
    pick_current_innings
      (.objVal [("inningsScoreList",
        .arrVal [.objVal [("batTeamId", .intVal 5), ("overs", .intVal 3)]])])
      "IND" "AUS" =
    .ok ("—", "IND",
      pyOr (.objVal [("batTeamId", .intVal 5), ("overs", .intVal 3)]) (.objVal [])) :=
  selector_unknown_bat_team
    (.objVal [("inningsScoreList",
      .arrVal [.objVal [("batTeamId", .intVal 5), ("overs", .intVal 3)]])])
    "IND" "AUS"
    [(((3 : Int) : ℚ), none, .objVal [("batTeamId", .intVal 5), ("overs", .intVal 3)])]
    [] ((3 : Int) : ℚ)
    (.objVal [("batTeamId", .intVal 5), ("overs", .intVal 3)])
    rfl rfl (by decide)

end Crickbuzz
